import Mathlib

/-!
# Verification of the Clarke-Wright savings routing core

Shallow embedding of `clarkeWrightAlgorithm` and `calculateDistance`
(src/routes/auth.js, lines 134-353) together with the supporting record
shapes from the Mongoose schemas (Vehicle, Route/Optimization).

Modelling conventions:
* Mongo `_id` values are modelled as `Nat`; the JS code compares ids via
  `toString()` equality, modelled as `Nat` equality.
* JS numbers used for demands, capacities and distances are modelled by an
  arbitrary linearly ordered commutative ring `α`: the algorithm only adds,
  subtracts, doubles and compares those quantities, so every structural
  theorem holds uniformly for `ℤ`, `ℚ` and `ℝ`.  Concrete executions are
  carried out at `α := ℤ`.
* The pairwise distance table `distances[a][b]` built at the top of
  `clarkeWrightAlgorithm` from the Haversine formula is passed to the
  algorithm as a function `dist : Nat → Nat → α` on location ids, because the
  Haversine values are transcendental reals; every theorem about the
  algorithm is proved for an arbitrary table, which subsumes the table the
  source builds.  The Haversine formula itself (`calculateDistance`) is
  embedded separately over `ℝ`.
* `Array.prototype.sort` with comparator `(a, b) => b.saving - a.saving` is a
  stable descending sort (ES2019); it is modelled by `List.insertionSort`
  with the relation `b.saving ≤ a.saving`, which is stable in the same sense.
-/

namespace VRP

/-- A location record (Location schema): id, display name, coordinates and
demand. -/
structure Location (α : Type) where
  id : Nat
  name : String
  latitude : α
  longitude : α
  demand : α
deriving DecidableEq

/-- A vehicle type (Vehicle schema): id, name, capacity and how many
identical vehicles of this type exist. -/
structure Vehicle (α : Type) where
  id : Nat
  name : String
  capacity : α
  count : Nat
deriving DecidableEq

/-- One concrete vehicle expanded from a `Vehicle` type
(`availableVehicles` entries in auth.js lines 182-189): the spread
`{...vehicle.toObject(), remainingCapacity: vehicle.capacity}` copies id,
name and capacity and adds the mutable remaining capacity. -/
structure VehicleInstance (α : Type) where
  id : Nat
  name : String
  capacity : α
  remainingCapacity : α
deriving DecidableEq

/-- One stop of a route (the objects pushed into `route.stops`,
auth.js lines 203-228). -/
structure Stop (α : Type) where
  locationId : Nat
  locationName : String
  latitude : α
  longitude : α
  demand : α
  order : Nat
deriving DecidableEq

/-- A route (Route schema / the objects pushed into `routes`). -/
structure Route (α : Type) where
  vehicleId : Nat
  vehicleName : String
  stops : List (Stop α)
  totalDistance : α
  totalCapacity : α
deriving DecidableEq

/-- One entry of the savings list (auth.js lines 161-165). -/
structure Saving (α : Type) where
  loc1 : Location α
  loc2 : Location α
  saving : α
deriving DecidableEq

variable {α : Type} [LinearOrderedCommRing α]

/-- Savings construction, auth.js lines 149-167: for every ordered pair
`(loc1, loc2)` of locations whose ids differ from the depot's and from each
other, push one entry with value
`distances[depot][loc1] + distances[depot][loc2] - distances[loc1][loc2]`.
`locations.forEach` with an early `return` on the depot is the `flatMap`
producing `[]`; the inner `forEach` with its guard is the `filterMap`. -/
def mkSavings (dist : Nat → Nat → α) (locations : List (Location α))
    (depot : Location α) : List (Saving α) :=
  locations.flatMap fun loc1 =>
    if loc1.id == depot.id then [] else
    locations.filterMap fun loc2 =>
      if loc2.id == depot.id || loc1.id == loc2.id then none
      else some ⟨loc1, loc2,
        dist depot.id loc1.id + dist depot.id loc2.id - dist loc1.id loc2.id⟩

/-- The ordering used by `savings.sort((a, b) => b.saving - a.saving)`:
`a` may precede `b` iff `a.saving ≥ b.saving`. -/
def savingsDesc (a b : Saving α) : Prop := b.saving ≤ a.saving

instance : DecidableRel (@savingsDesc α _) :=
  fun a b => inferInstanceAs (Decidable (b.saving ≤ a.saving))

instance : IsTotal (Saving α) savingsDesc :=
  ⟨fun a b => le_total b.saving a.saving⟩

instance : IsTrans (Saving α) savingsDesc :=
  ⟨fun _ _ _ h1 h2 => le_trans h2 h1⟩

/-- `savings.sort((a, b) => b.saving - a.saving)` (auth.js line 170): a
stable sort into descending order of `saving`. -/
def sortSavings (l : List (Saving α)) : List (Saving α) :=
  List.insertionSort savingsDesc l

/-- Fleet expansion, auth.js lines 182-189: each vehicle type contributes
`count` instances, each starting with `remainingCapacity = capacity`. -/
def expandVehicles (vehicles : List (Vehicle α)) : List (VehicleInstance α) :=
  vehicles.flatMap fun v =>
    List.replicate v.count ⟨v.id, v.name, v.capacity, v.capacity⟩

/-- The stop record built from a location with a given `order` field
(auth.js lines 204-227). -/
def locStop (l : Location α) (order : Nat) : Stop α :=
  ⟨l.id, l.name, l.latitude, l.longitude, l.demand, order⟩

/-- `locations.filter(loc => loc._id.toString() !== depot._id.toString())`
(auth.js lines 174-176). -/
def nonDepotLocations (locations : List (Location α)) (depot : Location α) :
    List (Location α) :=
  locations.filter fun loc => !(loc.id == depot.id)

/-- The mutable state of the route-building loop: the `routes` array, the
`availableVehicles` array and the `vehicleIndex` cursor. -/
structure BuildState (α : Type) where
  routes : List (Route α)
  fleet : List (VehicleInstance α)
  vehicleIndex : Nat
deriving DecidableEq

/-- One iteration of the initial-route loop, auth.js lines 192-236.
`if (vehicleIndex >= availableVehicles.length) return` is the `none`
branch of the index lookup; `if (location.demand > vehicle.remainingCapacity)
return` skips WITHOUT advancing `vehicleIndex` (the `return` exits the
callback before the trailing `vehicleIndex++`). -/
def buildStep (dist : Nat → Nat → α) (depot : Location α) (s : BuildState α)
    (location : Location α) : BuildState α :=
  match s.fleet[s.vehicleIndex]? with
  | none => s
  | some vehicle =>
    if location.demand > vehicle.remainingCapacity then s
    else
      { routes := s.routes ++ [
          { vehicleId := vehicle.id
            vehicleName := vehicle.name
            stops := [locStop depot 0, locStop location 1, locStop depot 2]
            totalDistance := dist depot.id location.id * 2
            totalCapacity := location.demand }]
        fleet := s.fleet.set s.vehicleIndex
          { vehicle with
              remainingCapacity := vehicle.remainingCapacity - location.demand }
        vehicleIndex := s.vehicleIndex + 1 }

/-- The whole initial-route phase: fold `buildStep` over the non-depot
locations, starting from no routes, the expanded fleet and cursor 0. -/
def buildRoutes (dist : Nat → Nat → α) (vehicles : List (Vehicle α))
    (locations : List (Location α)) (depot : Location α) : BuildState α :=
  (nonDepotLocations locations depot).foldl (buildStep dist depot)
    ⟨[], expandVehicles vehicles, 0⟩

/-- The mutable state of the merge loop: the `routes` array and the
`availableVehicles` array (whose `remainingCapacity` fields it updates). -/
structure MergeState (α : Type) where
  routes : List (Route α)
  fleet : List (VehicleInstance α)
deriving DecidableEq

/-- `route.stops.some(stop => stop.locationId.toString() === loc._id.toString())`
(auth.js lines 249-256). -/
def routeContains (r : Route α) (l : Location α) : Bool :=
  r.stops.any fun stp => stp.locationId == l.id

/-- Sequential renumbering of the `order` fields: the merge loop pushes the
stops of the merged route with `order: order++`, so each stop's `order` is
its position in the new list. -/
def renumber : Nat → List (Stop α) → List (Stop α)
  | _, [] => []
  | n, stp :: rest => { stp with order := n } :: renumber (n + 1) rest

/-- Total distance of a stop sequence, auth.js lines 311-316: the sum of
`distances[from][to]` over consecutive stops. -/
def pathDistance (dist : Nat → Nat → α) : List (Stop α) → α
  | a :: b :: rest =>
    dist a.locationId b.locationId + pathDistance dist (b :: rest)
  | _ => 0

/-- `route.stops.slice(1, -1)`: the stops without the leading and trailing
depot entries. -/
def mids (r : Route α) : List (Stop α) := (r.stops.drop 1).dropLast

/-- One iteration of the merge loop, auth.js lines 239-333.
`route1`/`route2` are the FIRST routes whose stops contain `loc1` resp.
`loc2` (the loop records only the first hit for each).  If either is
missing, or both indices coincide, or no vehicle in the pool has
`_id === route1.vehicleId`, or the combined demand exceeds that vehicle's
capacity, the entry is skipped.  Otherwise the two routes are replaced by
one: depot, route1's intermediate stops, route2's intermediate stops, depot,
orders renumbered from 0, distance recomputed along the new sequence, the
found vehicle's remaining capacity set to `capacity - totalDemand`
(`routes.splice(max,1)` then `routes.splice(min,1,merged)` is
`eraseIdx (max i1 i2)` followed by `set (min i1 i2)`).
The `r1.stops = []` branch is unreachable for states produced by the
algorithm (every route it builds has at least three stops); it totalises the
JS access `route1.route.stops[0]`. -/
def mergeStep (dist : Nat → Nat → α) (st : MergeState α) (sv : Saving α) :
    MergeState α :=
  match List.findIdx? (fun r => routeContains r sv.loc1) st.routes with
  | none => st
  | some i1 =>
  match List.findIdx? (fun r => routeContains r sv.loc2) st.routes with
  | none => st
  | some i2 =>
  if i1 = i2 then st else
  match st.routes[i1]? with
  | none => st
  | some r1 =>
  match st.routes[i2]? with
  | none => st
  | some r2 =>
  let totalDemand := r1.totalCapacity + r2.totalCapacity
  match List.findIdx? (fun v => v.id == r1.vehicleId) st.fleet with
  | none => st
  | some vi =>
  match st.fleet[vi]? with
  | none => st
  | some vehicle =>
  if totalDemand > vehicle.capacity then st
  else
    match r1.stops with
    | [] => st
    | h0 :: _ =>
      let newStops := renumber 0 (h0 :: (mids r1 ++ mids r2) ++ [h0])
      { routes := (st.routes.eraseIdx (max i1 i2)).set (min i1 i2)
          { vehicleId := r1.vehicleId
            vehicleName := r1.vehicleName
            stops := newStops
            totalDistance := pathDistance dist newStops
            totalCapacity := totalDemand }
        fleet := st.fleet.set vi
          { vehicle with
              remainingCapacity := vehicle.capacity - totalDemand } }

/-- The complete algorithm, auth.js lines 135-336: build the savings list,
sort it descending, build the initial singleton routes, then fold the merge
step over the sorted savings and return the surviving routes. -/
def clarkeWrightAlgorithm (dist : Nat → Nat → α) (vehicles : List (Vehicle α))
    (locations : List (Location α)) (depot : Location α) : List (Route α) :=
  let savings := sortSavings (mkSavings dist locations depot)
  let built := buildRoutes dist vehicles locations depot
  (savings.foldl (mergeStep dist) ⟨built.routes, built.fleet⟩).routes

/-! ## The concrete scenario of the spec (§8)

Depot at (0°, 0°), two stops at (0°, 1°) and (0°, 2°), each with demand 5.
All three points lie on the equator, so the great-circle distances computed
by `calculateDistance` are exactly `6371·π/180` km times 1, 2 and 1
respectively; `scenarioDist` records them in units of `6371·π/180` km.  The
algorithm's route structure depends on the distance table only through
comparisons of savings values, which a positive rescaling preserves. -/

def scenarioDepot : Location ℤ := ⟨0, "Depot", 0, 0, 0⟩

def scenarioStop1 : Location ℤ := ⟨1, "A", 0, 1, 5⟩

def scenarioStop2 : Location ℤ := ⟨2, "B", 0, 2, 5⟩

def scenarioLocations : List (Location ℤ) :=
  [scenarioDepot, scenarioStop1, scenarioStop2]

def scenarioDist : Nat → Nat → ℤ
  | 0, 1 => 1
  | 1, 0 => 1
  | 0, 2 => 2
  | 2, 0 => 2
  | 1, 2 => 1
  | 2, 1 => 1
  | _, _ => 0

/-- The location ids along a route, in stop order. -/
def stopIds (r : Route α) : List Nat := r.stops.map Stop.locationId

/-! ## The Haversine distance (auth.js lines 339-353)

Embedded over `ℝ`.  `Math.atan2(y, x)` agrees with the argument of the
complex number `x + y·i` (both lie in `(-π, π]` and both send `(0, 0)` to
`0`), so it is modelled by `Complex.arg`. -/

/-- JS `Math.atan2(y, x)`, modelled as the argument of `x + y·i`. -/
noncomputable def atan2 (y x : ℝ) : ℝ := Complex.arg ⟨x, y⟩

/-- `calculateDistance`, auth.js lines 339-353: the Haversine great-circle
distance with Earth radius 6371 km, all angles converted from degrees to
radians. -/
noncomputable def calculateDistance (lat1 lon1 lat2 lon2 : ℝ) : ℝ :=
  let R : ℝ := 6371
  let dLat := (lat2 - lat1) * Real.pi / 180
  let dLon := (lon2 - lon1) * Real.pi / 180
  let a := Real.sin (dLat / 2) * Real.sin (dLat / 2) +
    Real.cos (lat1 * Real.pi / 180) * Real.cos (lat2 * Real.pi / 180) *
      Real.sin (dLon / 2) * Real.sin (dLon / 2)
  let c := 2 * atan2 (Real.sqrt a) (Real.sqrt (1 - a))
  R * c

theorem sin_sub_swap (u v : ℝ) :
    Real.sin ((u - v) * Real.pi / 180 / 2) = -Real.sin ((v - u) * Real.pi / 180 / 2) := by
  have h : (u - v) * Real.pi / 180 / 2 = -((v - u) * Real.pi / 180 / 2) := by ring
  rw [h, Real.sin_neg]

theorem calculateDistance_comm (lat1 lon1 lat2 lon2 : ℝ) :
    calculateDistance lat1 lon1 lat2 lon2 = calculateDistance lat2 lon2 lat1 lon1 := by
  unfold calculateDistance
  dsimp only
  rw [sin_sub_swap lat2 lat1, sin_sub_swap lon2 lon1]
  ring_nf

theorem calculateDistance_self (lat lon : ℝ) :
    calculateDistance lat lon lat lon = 0 := by
  unfold calculateDistance
  have hmk : (⟨1, 0⟩ : ℂ) = 1 := Complex.ext rfl rfl
  simp [atan2, sub_self, Real.sqrt_one, hmk, Complex.arg_one]

/-! ## Claim C1 -/

/-- Claim C1, counterexample: with the spec's own input — depot (0,0), stops
(0,1) and (0,2) of demand 5, ONE vehicle of capacity 10 (`count 1`) — the
output is a single singleton route visiting only the first stop with total
demand 5, and no output route visits the second stop: the cursor is
exhausted after the first stop, the second stop never receives an initial
route, and a stop outside every route can never be merged in.  This refutes
the claimed single merged route visiting both stops with demand 10. -/
theorem C1_count_one_leaves_second_stop_unrouted :
    (clarkeWrightAlgorithm scenarioDist [⟨10, "Truck", 10, 1⟩]
        scenarioLocations scenarioDepot).map
      (fun r => (stopIds r, r.totalCapacity)) = [([0, 1, 0], 5)] ∧
    ((clarkeWrightAlgorithm scenarioDist [⟨10, "Truck", 10, 1⟩]
        scenarioLocations scenarioDepot).all
      fun r => !(r.stops.any fun stp => stp.locationId == 2)) = true := by
  decide

/-- Claim C1 as amended: with TWO vehicle instances of capacity 10
(`count 2`; the initial-route phase consumes one vehicle position per
routed stop, so the classical single-vehicle reading requires two
instances), the algorithm outputs a single merged route visiting both
stops — depot, (0,1), (0,2), depot — with total demand 10. -/
theorem C1_two_instances_merge_both_stops :
    (clarkeWrightAlgorithm scenarioDist [⟨10, "Truck", 10, 2⟩]
        scenarioLocations scenarioDepot).map
      (fun r => (stopIds r, r.totalCapacity)) = [([0, 1, 2, 0], 10)] := by
  decide

/-! ## Claim C2, counterexample

Input for the cursor behaviour: one vehicle type of capacity 10 with two
instances, and two non-depot stops processed in order — first a stop of
demand 20 (skipped: 20 exceeds the remaining capacity 10 of the instance at
the cursor) and then a stop of demand 5. -/

def c2Big : Location ℤ := ⟨1, "Big", 0, 1, 20⟩

def c2Small : Location ℤ := ⟨2, "Small", 0, 2, 5⟩

/-- Claim C2, counterexample: after processing the two non-depot stops the
cursor stands at 1, not 2 — the capacity skip of the first stop did NOT
advance it (the early `return` in auth.js line 198 exits the callback before
`vehicleIndex++` on line 235).  Consequently the second stop's route is
bound to the FIRST vehicle instance (remaining capacities [5, 10]), not the
second as the claim's cursor rule would demand. -/
theorem C2_skip_does_not_advance_cursor :
    (buildRoutes scenarioDist [⟨10, "Truck", 10, 2⟩]
        [scenarioDepot, c2Big, c2Small] scenarioDepot).vehicleIndex = 1 ∧
    (buildRoutes scenarioDist [⟨10, "Truck", 10, 2⟩]
        [scenarioDepot, c2Big, c2Small] scenarioDepot).routes.map stopIds
      = [[0, 2, 0]] ∧
    (buildRoutes scenarioDist [⟨10, "Truck", 10, 2⟩]
        [scenarioDepot, c2Big, c2Small] scenarioDepot).fleet.map
        VehicleInstance.remainingCapacity = [5, 10] := by
  decide

/-! ## Claim C3, counterexample -/

/-- Claim C3, counterexample: for the scenario locations there is exactly
ONE unordered pair of distinct non-depot stops, `{1, 2}`, yet the savings
list (sorted, as handed to the merge phase) holds TWO entries for it — one
per ordered pair — because the doubly nested `forEach` (auth.js lines
150-167) excludes only the depot and equal ids, not mirrored pairs.  This
refutes "exactly one entry per unordered pair". -/
theorem C3_mirrored_pair_appears_twice :
    (sortSavings (mkSavings scenarioDist scenarioLocations scenarioDepot)).map
      (fun e => (e.loc1.id, e.loc2.id, e.saving)) = [(1, 2, 2), (2, 1, 2)] := by
  decide

/-! ## Claim C4 -/

/-- Claim C4, counterexample: with vehicle capacity 4 the claimed outcome
(two singleton routes, or one unrouted stop with a single instance) does not
occur: each stop's demand 5 already exceeds the remaining capacity 4 at the
initial-route phase (auth.js line 198), so BOTH stops are skipped there and
the output is empty — whether two instances are available or one. -/
theorem C4_capacity_four_yields_no_routes :
    clarkeWrightAlgorithm scenarioDist [⟨10, "Truck", 4, 2⟩]
        scenarioLocations scenarioDepot = [] ∧
    clarkeWrightAlgorithm scenarioDist [⟨10, "Truck", 4, 1⟩]
        scenarioLocations scenarioDepot = [] := by
  decide

/-- Claim C4 as amended: the rejected-merge scenario occurs at capacity 5
(enough for one stop of demand 5 but below the combined demand 10).  With
two instances, two separate singleton routes remain — the merge is rejected
by the capacity check (10 > 5) — and both vehicle positions are consumed
(cursor 2, remaining capacities [0, 0]).  With a single instance, only the
first stop is routed and the second is left unrouted. -/
theorem C4_capacity_five_merge_rejected :
    (clarkeWrightAlgorithm scenarioDist [⟨10, "Truck", 5, 2⟩]
        scenarioLocations scenarioDepot).map
      (fun r => (stopIds r, r.totalCapacity)) = [([0, 1, 0], 5), ([0, 2, 0], 5)] ∧
    (buildRoutes scenarioDist [⟨10, "Truck", 5, 2⟩]
        scenarioLocations scenarioDepot).vehicleIndex = 2 ∧
    (buildRoutes scenarioDist [⟨10, "Truck", 5, 2⟩]
        scenarioLocations scenarioDepot).fleet.map
        VehicleInstance.remainingCapacity = [0, 0] ∧
    (clarkeWrightAlgorithm scenarioDist [⟨10, "Truck", 5, 1⟩]
        scenarioLocations scenarioDepot).map
      (fun r => (stopIds r, r.totalCapacity)) = [([0, 1, 0], 5)] := by
  decide

/-! ## Structural lemmas

`buildStep` and `mergeStep` are branch-heavy; the two characterisation
lemmas below expose, once and for all, either that a step leaves the state
unchanged or the exact shape of the successor state together with the facts
the guards established. -/

theorem buildStep_characterisation (dist : Nat → Nat → α) (depot : Location α)
    (s : BuildState α) (location : Location α) :
    buildStep dist depot s location = s ∨
    ∃ vehicle, s.fleet[s.vehicleIndex]? = some vehicle ∧
      location.demand ≤ vehicle.remainingCapacity ∧
      buildStep dist depot s location =
        ⟨s.routes ++ [⟨vehicle.id, vehicle.name,
            [locStop depot 0, locStop location 1, locStop depot 2],
            dist depot.id location.id * 2, location.demand⟩],
          s.fleet.set s.vehicleIndex
            { vehicle with
                remainingCapacity := vehicle.remainingCapacity - location.demand },
          s.vehicleIndex + 1⟩ := by
  unfold buildStep
  cases hv : s.fleet[s.vehicleIndex]? with
  | none => exact Or.inl rfl
  | some vehicle =>
    by_cases hc : location.demand > vehicle.remainingCapacity
    · exact Or.inl (by simp [hc])
    · exact Or.inr ⟨vehicle, rfl, le_of_not_lt hc, by simp [hc]⟩

theorem mergeStep_characterisation (dist : Nat → Nat → α) (st : MergeState α)
    (sv : Saving α) :
    mergeStep dist st sv = st ∨
    ∃ i1 i2 r1 r2 vi vehicle h0 rest,
      st.routes[i1]? = some r1 ∧ st.routes[i2]? = some r2 ∧ i1 ≠ i2 ∧
      st.fleet[vi]? = some vehicle ∧ vehicle.id = r1.vehicleId ∧
      r1.totalCapacity + r2.totalCapacity ≤ vehicle.capacity ∧
      r1.stops = h0 :: rest ∧
      mergeStep dist st sv =
        ⟨(st.routes.eraseIdx (max i1 i2)).set (min i1 i2)
            ⟨r1.vehicleId, r1.vehicleName,
              renumber 0 (h0 :: (mids r1 ++ mids r2) ++ [h0]),
              pathDistance dist (renumber 0 (h0 :: (mids r1 ++ mids r2) ++ [h0])),
              r1.totalCapacity + r2.totalCapacity⟩,
          st.fleet.set vi
            { vehicle with
                remainingCapacity :=
                  vehicle.capacity - (r1.totalCapacity + r2.totalCapacity) }⟩ := by
  unfold mergeStep
  split
  · exact Or.inl rfl
  next i1 hf1 =>
  split
  · exact Or.inl rfl
  next i2 hf2 =>
  split
  next hii => exact Or.inl rfl
  next hii =>
  split
  · exact Or.inl rfl
  next r1 hr1 =>
  split
  · exact Or.inl rfl
  next r2 hr2 =>
  dsimp only
  split
  · exact Or.inl rfl
  next vi hv =>
  split
  · exact Or.inl rfl
  next vehicle hvv =>
  split
  next hcap => exact Or.inl rfl
  next hcap =>
  split
  next hst => exact Or.inl rfl
  next h0 tail hst =>
  obtain ⟨hlt, hp, -⟩ := List.findIdx?_eq_some_iff_getElem.mp hv
  have hg2 : st.fleet[vi] = vehicle := by
    rw [List.getElem?_eq_getElem hlt] at hvv
    exact Option.some.inj hvv
  rw [hg2] at hp
  exact Or.inr ⟨i1, i2, r1, r2, vi, vehicle, h0, tail, hr1, hr2, hii, hvv,
    by simpa using hp, le_of_not_lt hcap, hst, rfl⟩

/-! ## Claim C2, amended general theorem -/

theorem foldl_buildStep_vehicleIndex (dist : Nat → Nat → α) (depot : Location α)
    (locs : List (Location α)) (s : BuildState α)
    (h : s.vehicleIndex = s.routes.length) :
    (locs.foldl (buildStep dist depot) s).vehicleIndex =
      (locs.foldl (buildStep dist depot) s).routes.length := by
  induction locs generalizing s with
  | nil => exact h
  | cons l ls ih =>
    apply ih
    rcases buildStep_characterisation dist depot s l with heq | ⟨vehicle, -, -, heq⟩
    · rw [heq]; exact h
    · rw [heq]; simp [h]

theorem buildRoutes_cursor_eq_routes (dist : Nat → Nat → α)
    (vehicles : List (Vehicle α)) (locations : List (Location α))
    (depot : Location α) :
    (buildRoutes dist vehicles locations depot).vehicleIndex =
      (buildRoutes dist vehicles locations depot).routes.length :=
  foldl_buildStep_vehicleIndex dist depot (nonDepotLocations locations depot)
    ⟨[], expandVehicles vehicles, 0⟩ rfl

/-- Claim C2 as amended: in the Route Builder the vehicle-assignment cursor
advances exactly when a stop is successfully assigned a route — a stop
skipped for capacity (or for lack of vehicles) consumes NO position — so
after the build phase the cursor equals the number of routes created. -/
theorem C2_cursor_counts_built_routes (dist : Nat → Nat → α)
    (vehicles : List (Vehicle α)) (locations : List (Location α))
    (depot : Location α) :
    (buildRoutes dist vehicles locations depot).vehicleIndex =
      (buildRoutes dist vehicles locations depot).routes.length :=
  buildRoutes_cursor_eq_routes dist vehicles locations depot

/-! ## Claim C8 -/

/-- Claim C8: the savings list handed to the merge phase is sorted in
non-increasing order of saving value: every entry's saving is greater than
or equal to every later entry's saving (in particular each adjacent
pair's). -/
theorem C8_savings_sorted_nonincreasing (dist : Nat → Nat → α)
    (locations : List (Location α)) (depot : Location α) :
    List.Sorted savingsDesc (sortSavings (mkSavings dist locations depot)) :=
  List.sorted_insertionSort savingsDesc (mkSavings dist locations depot)

/-! ## Claim C10 -/

theorem foldl_buildStep_fleet_length (dist : Nat → Nat → α) (depot : Location α)
    (locs : List (Location α)) (s : BuildState α) :
    (locs.foldl (buildStep dist depot) s).fleet.length = s.fleet.length := by
  induction locs generalizing s with
  | nil => rfl
  | cons l ls ih =>
    rw [List.foldl_cons, ih]
    rcases buildStep_characterisation dist depot s l with heq | ⟨vehicle, -, -, heq⟩
    · rw [heq]
    · rw [heq]; simp

theorem foldl_buildStep_vehicleIndex_le (dist : Nat → Nat → α)
    (depot : Location α) (locs : List (Location α)) (s : BuildState α)
    (h : s.vehicleIndex ≤ s.fleet.length) :
    (locs.foldl (buildStep dist depot) s).vehicleIndex ≤
      (locs.foldl (buildStep dist depot) s).fleet.length := by
  induction locs generalizing s with
  | nil => exact h
  | cons l ls ih =>
    apply ih
    rcases buildStep_characterisation dist depot s l with heq | ⟨vehicle, hv, -, heq⟩
    · rw [heq]; exact h
    · rw [heq]
      obtain ⟨hlt, -⟩ := List.getElem?_eq_some.mp hv
      simpa using hlt

theorem mergeStep_routes_length_le (dist : Nat → Nat → α) (st : MergeState α)
    (sv : Saving α) :
    (mergeStep dist st sv).routes.length ≤ st.routes.length := by
  rcases mergeStep_characterisation dist st sv with heq |
    ⟨i1, i2, r1, r2, vi, vehicle, h0, rest, -, -, -, -, -, -, -, heq⟩
  · rw [heq]
  · rw [heq]
    simp only [List.length_set, List.length_eraseIdx]
    split <;> omega

theorem foldl_mergeStep_routes_length_le (dist : Nat → Nat → α)
    (savings : List (Saving α)) (st : MergeState α) :
    (savings.foldl (mergeStep dist) st).routes.length ≤ st.routes.length := by
  induction savings generalizing st with
  | nil => exact le_refl _
  | cons sv svs ih =>
    exact le_trans (ih (mergeStep dist st sv)) (mergeStep_routes_length_le dist st sv)

theorem length_expandVehicles (vehicles : List (Vehicle α)) :
    (expandVehicles vehicles).length = (vehicles.map Vehicle.count).sum := by
  simp [expandVehicles, List.length_flatMap, Function.comp_def]

theorem buildRoutes_cursor_le_fleet (dist : Nat → Nat → α)
    (vehicles : List (Vehicle α)) (locations : List (Location α))
    (depot : Location α) :
    (buildRoutes dist vehicles locations depot).vehicleIndex ≤
      (buildRoutes dist vehicles locations depot).fleet.length :=
  foldl_buildStep_vehicleIndex_le dist depot (nonDepotLocations locations depot)
    ⟨[], expandVehicles vehicles, 0⟩ (Nat.zero_le _)

theorem buildRoutes_fleet_length (dist : Nat → Nat → α)
    (vehicles : List (Vehicle α)) (locations : List (Location α))
    (depot : Location α) :
    (buildRoutes dist vehicles locations depot).fleet.length =
      (expandVehicles vehicles : List (VehicleInstance α)).length :=
  foldl_buildStep_fleet_length dist depot (nonDepotLocations locations depot)
    ⟨[], expandVehicles vehicles, 0⟩

/-- Claim C10: the number of routes in the output never exceeds the total
number of vehicle instances (the sum of the vehicle types' counts): each
initial route consumes one distinct vehicle-pool position and each merge
replaces two routes by one. -/
theorem C10_routes_le_fleet_size (dist : Nat → Nat → α)
    (vehicles : List (Vehicle α)) (locations : List (Location α))
    (depot : Location α) :
    (clarkeWrightAlgorithm dist vehicles locations depot).length ≤
      (vehicles.map Vehicle.count).sum := by
  unfold clarkeWrightAlgorithm
  dsimp only
  refine le_trans (foldl_mergeStep_routes_length_le dist _ _) ?_
  show (buildRoutes dist vehicles locations depot).routes.length ≤ _
  have h1 := buildRoutes_cursor_eq_routes dist vehicles locations depot
  have h2 := buildRoutes_cursor_le_fleet dist vehicles locations depot
  have h3 := buildRoutes_fleet_length dist vehicles locations depot
  have h4 := @length_expandVehicles α _ vehicles
  omega

/-! ## Claim C5 -/

/-- The depot-framing property of a route, on location ids: the id sequence
is the depot id, then intermediate ids none of which is the depot id, then
the depot id again. -/
def depotFramed (depotId : Nat) (r : Route α) : Prop :=
  ∃ ids, stopIds r = depotId :: ids ++ [depotId] ∧ ∀ i ∈ ids, i ≠ depotId

/-- Executable form of `depotFramed`: first id is the depot id, last id is
the depot id, and no id strictly between them is the depot id. -/
def depotFramedB (depotId : Nat) (r : Route α) : Bool :=
  ((stopIds r).head? == some depotId) &&
    ((stopIds r).getLast? == some depotId) &&
    ((stopIds r).drop 1).dropLast.all fun i => !(i == depotId)

theorem depotFramed_toB {depotId : Nat} {r : Route α}
    (h : depotFramed depotId r) : depotFramedB depotId r = true := by
  obtain ⟨ids, hids, hmem⟩ := h
  unfold depotFramedB
  rw [hids]
  have h1 : (depotId :: ids ++ [depotId]).head? = some depotId := rfl
  have h2 : (depotId :: ids ++ [depotId]).getLast? = some depotId := by
    rw [show depotId :: ids ++ [depotId] = (depotId :: ids) ++ [depotId] from rfl]
    exact List.getLast?_concat _
  have h3 : ((depotId :: ids ++ [depotId]).drop 1).dropLast = ids := by
    show (ids ++ [depotId]).dropLast = ids
    exact List.dropLast_concat
  rw [h1, h2, h3]
  simp only [beq_self_eq_true, Bool.true_and, List.all_eq_true]
  intro i hi
  simpa using hmem i hi

theorem renumber_map_locationId (n : Nat) (l : List (Stop α)) :
    (renumber n l).map Stop.locationId = l.map Stop.locationId := by
  induction l generalizing n with
  | nil => rfl
  | cons stp rest ih => simp [renumber, ih]

theorem buildStep_framed (dist : Nat → Nat → α) (depot : Location α)
    (s : BuildState α) (location : Location α) (hloc : location.id ≠ depot.id)
    (h : ∀ r ∈ s.routes, depotFramed depot.id r) :
    ∀ r ∈ (buildStep dist depot s location).routes, depotFramed depot.id r := by
  rcases buildStep_characterisation dist depot s location with heq | ⟨vehicle, -, -, heq⟩
  · rw [heq]; exact h
  · rw [heq]
    intro r hr
    rcases List.mem_append.mp hr with hr | hr
    · exact h r hr
    · rw [List.mem_singleton.mp hr]
      refine ⟨[location.id], by simp [stopIds, locStop], ?_⟩
      intro i hi
      rw [List.mem_singleton.mp hi]
      exact hloc

theorem mergeStep_framed (dist : Nat → Nat → α) (st : MergeState α)
    (sv : Saving α) (d : Nat) (h : ∀ r ∈ st.routes, depotFramed d r) :
    ∀ r ∈ (mergeStep dist st sv).routes, depotFramed d r := by
  rcases mergeStep_characterisation dist st sv with heq |
    ⟨i1, i2, r1, r2, vi, vehicle, h0, rest, hr1, hr2, hii, hvv, hvid, hcap, hst, heq⟩
  · rw [heq]; exact h
  · rw [heq]
    intro r hr
    rcases List.mem_or_eq_of_mem_set hr with hr | hr
    · exact h r ((List.eraseIdx_sublist st.routes (max i1 i2)).mem hr)
    · subst hr
      have hm1 : r1 ∈ st.routes := by
        obtain ⟨hlt, hg⟩ := List.getElem?_eq_some.mp hr1
        rw [← hg]; exact List.getElem_mem hlt
      have hm2 : r2 ∈ st.routes := by
        obtain ⟨hlt, hg⟩ := List.getElem?_eq_some.mp hr2
        rw [← hg]; exact List.getElem_mem hlt
      obtain ⟨ids1, hids1, hmem1⟩ := h r1 hm1
      obtain ⟨ids2, hids2, hmem2⟩ := h r2 hm2
      have hsplit1 : stopIds r1 = h0.locationId :: rest.map Stop.locationId := by
        simp [stopIds, hst]
      rw [hsplit1] at hids1
      obtain ⟨hh0, hrest⟩ := List.cons_eq_cons.mp hids1
      have hmids1 : (mids r1).map Stop.locationId = ids1 := by
        unfold mids
        rw [hst]
        show (rest.dropLast).map Stop.locationId = ids1
        rw [List.map_dropLast, hrest]
        exact List.dropLast_concat
      have hmids2 : (mids r2).map Stop.locationId = ids2 := by
        unfold mids
        rw [List.map_dropLast, List.map_drop]
        have hmm : List.map Stop.locationId r2.stops = stopIds r2 := rfl
        rw [hmm, hids2]
        show (ids2 ++ [d]).dropLast = ids2
        exact List.dropLast_concat
      refine ⟨ids1 ++ ids2, ?_, ?_⟩
      · show (renumber 0 (h0 :: (mids r1 ++ mids r2) ++ [h0])).map Stop.locationId = _
        rw [renumber_map_locationId]
        simp only [List.map_append, List.map_cons, List.map_nil, hmids1, hmids2, hh0]
      · intro i hi
        rcases List.mem_append.mp hi with hi | hi
        · exact hmem1 i hi
        · exact hmem2 i hi

theorem foldl_buildStep_framed (dist : Nat → Nat → α) (depot : Location α) :
    ∀ (locs : List (Location α)) (s : BuildState α),
      (∀ l ∈ locs, l.id ≠ depot.id) →
      (∀ r ∈ s.routes, depotFramed depot.id r) →
      ∀ r ∈ (locs.foldl (buildStep dist depot) s).routes, depotFramed depot.id r := by
  intro locs
  induction locs with
  | nil => intro s _ h; exact h
  | cons l ls ih =>
    intro s hl h
    exact ih (buildStep dist depot s l)
      (fun x hx => hl x (List.mem_cons_of_mem l hx))
      (buildStep_framed dist depot s l (hl l (List.mem_cons_self l ls)) h)

theorem foldl_mergeStep_framed (dist : Nat → Nat → α) (svs : List (Saving α))
    (st : MergeState α) (d : Nat) (h : ∀ r ∈ st.routes, depotFramed d r) :
    ∀ r ∈ (svs.foldl (mergeStep dist) st).routes, depotFramed d r := by
  induction svs generalizing st with
  | nil => exact h
  | cons sv svs ih => exact ih (mergeStep dist st sv) (mergeStep_framed dist st sv d h)

/-- Claim C5: every route in the output starts at the depot, ends at the
depot, and has no intermediate stop whose location id is the depot's. -/
theorem C5_routes_depot_framed (dist : Nat → Nat → α)
    (vehicles : List (Vehicle α)) (locations : List (Location α))
    (depot : Location α) :
    ∀ r ∈ clarkeWrightAlgorithm dist vehicles locations depot,
      depotFramedB depot.id r = true := by
  intro r hr
  refine depotFramed_toB ?_
  unfold clarkeWrightAlgorithm at hr
  dsimp only at hr
  have hbuild : ∀ r ∈ (buildRoutes dist vehicles locations depot).routes,
      depotFramed depot.id r := by
    unfold buildRoutes
    refine foldl_buildStep_framed dist depot (nonDepotLocations locations depot)
      ⟨[], expandVehicles vehicles, 0⟩ ?_ (by intro r hr; simp at hr)
    intro l hl
    have := (List.mem_filter.mp hl).2
    simpa using this
  exact foldl_mergeStep_framed dist _ _ depot.id hbuild r hr

instance : Inhabited (Route ℤ) := ⟨⟨0, "", [], 0, 0⟩⟩

/-- Witness for C5: the merged route of the capacity-10, two-instance
scenario is depot-framed. -/
theorem C5_routes_depot_framed_witness :
    depotFramedB scenarioDepot.id
      ((clarkeWrightAlgorithm scenarioDist [⟨10, "Truck", 10, 2⟩]
          scenarioLocations scenarioDepot).headI) = true :=
  C5_routes_depot_framed scenarioDist [⟨10, "Truck", 10, 2⟩]
    scenarioLocations scenarioDepot _ (by decide)

/-! ## Claim C6

The capacity invariant.  The merge loop looks the bound vehicle up by id in
the vehicle pool (`availableVehicles.find(v => v._id === route1.vehicleId)`),
and every pool instance with a given id descends from the unique vehicle
type with that id (ids are Mongo ObjectIds, unique across types), whose
`capacity` it copies.  So "the capacity of the vehicle the route is bound
to" is the capacity of any vehicle type whose id equals the route's
`vehicleId`; the theorem bounds `totalCapacity` by all of them at once,
assuming the type ids are distinct and demands are non-negative (the spec's
input-validation assumptions, §7). -/

/-- Fleet side of the capacity invariant: remaining capacity never exceeds
capacity, and an instance's capacity agrees with every type sharing its
id. -/
def fleetCapsOk (vehicles : List (Vehicle α))
    (fleet : List (VehicleInstance α)) : Prop :=
  ∀ inst ∈ fleet, inst.remainingCapacity ≤ inst.capacity ∧
    ∀ v ∈ vehicles, v.id = inst.id → inst.capacity = v.capacity

/-- Route side of the capacity invariant: cumulative demand is non-negative
and bounded by the capacity of every type sharing the bound vehicle id. -/
def routesCapsOk (vehicles : List (Vehicle α)) (routes : List (Route α)) : Prop :=
  ∀ r ∈ routes, 0 ≤ r.totalCapacity ∧
    ∀ v ∈ vehicles, v.id = r.vehicleId → r.totalCapacity ≤ v.capacity

theorem expandVehicles_capsOk (vehicles : List (Vehicle α))
    (hnd : (vehicles.map Vehicle.id).Nodup) :
    fleetCapsOk vehicles (expandVehicles vehicles) := by
  intro inst hinst
  obtain ⟨t, ht, hrep⟩ := List.mem_flatMap.mp hinst
  have hinst_eq : inst = ⟨t.id, t.name, t.capacity, t.capacity⟩ :=
    List.eq_of_mem_replicate hrep
  subst hinst_eq
  refine ⟨le_refl _, ?_⟩
  intro v hv hid
  have hveq : v = t := List.inj_on_of_nodup_map hnd hv ht hid
  rw [hveq]

theorem buildStep_capsOk (vehicles : List (Vehicle α)) (dist : Nat → Nat → α)
    (depot : Location α)
    (s : BuildState α) (location : Location α) (hd : 0 ≤ location.demand)
    (hf : fleetCapsOk vehicles s.fleet) (hr : routesCapsOk vehicles s.routes) :
    fleetCapsOk vehicles (buildStep dist depot s location).fleet ∧
      routesCapsOk vehicles (buildStep dist depot s location).routes := by
  rcases buildStep_characterisation dist depot s location with heq |
    ⟨vehicle, hv, hc, heq⟩
  · rw [heq]; exact ⟨hf, hr⟩
  · rw [heq]
    have hmemv : vehicle ∈ s.fleet := by
      obtain ⟨hlt, hg⟩ := List.getElem?_eq_some.mp hv
      rw [← hg]; exact List.getElem_mem hlt
    obtain ⟨hrem, hlink⟩ := hf vehicle hmemv
    constructor
    · intro inst hinst
      rcases List.mem_or_eq_of_mem_set hinst with hinst | hinst
      · exact hf inst hinst
      · subst hinst
        exact ⟨le_trans (sub_le_self _ hd) hrem, hlink⟩
    · intro r hrr
      rcases List.mem_append.mp hrr with hrr | hrr
      · exact hr r hrr
      · rw [List.mem_singleton.mp hrr]
        refine ⟨hd, ?_⟩
        intro v hvv hid
        calc location.demand ≤ vehicle.remainingCapacity := hc
          _ ≤ vehicle.capacity := hrem
          _ = v.capacity := hlink v hvv hid

theorem mergeStep_capsOk (vehicles : List (Vehicle α)) (dist : Nat → Nat → α)
    (st : MergeState α)
    (sv : Saving α) (hf : fleetCapsOk vehicles st.fleet)
    (hr : routesCapsOk vehicles st.routes) :
    fleetCapsOk vehicles (mergeStep dist st sv).fleet ∧
      routesCapsOk vehicles (mergeStep dist st sv).routes := by
  rcases mergeStep_characterisation dist st sv with heq |
    ⟨i1, i2, r1, r2, vi, vehicle, h0, rest, hr1, hr2, hii, hvv, hvid, hcap, hst, heq⟩
  · rw [heq]; exact ⟨hf, hr⟩
  · rw [heq]
    have hm1 : r1 ∈ st.routes := by
      obtain ⟨hlt, hg⟩ := List.getElem?_eq_some.mp hr1
      rw [← hg]; exact List.getElem_mem hlt
    have hm2 : r2 ∈ st.routes := by
      obtain ⟨hlt, hg⟩ := List.getElem?_eq_some.mp hr2
      rw [← hg]; exact List.getElem_mem hlt
    have hmemv : vehicle ∈ st.fleet := by
      obtain ⟨hlt, hg⟩ := List.getElem?_eq_some.mp hvv
      rw [← hg]; exact List.getElem_mem hlt
    obtain ⟨hrem, hlink⟩ := hf vehicle hmemv
    have htc1 := hr r1 hm1
    have htc2 := hr r2 hm2
    have htc : 0 ≤ r1.totalCapacity + r2.totalCapacity :=
      add_nonneg htc1.1 htc2.1
    constructor
    · intro inst hinst
      rcases List.mem_or_eq_of_mem_set hinst with hinst | hinst
      · exact hf inst hinst
      · subst hinst
        exact ⟨sub_le_self _ htc, hlink⟩
    · intro r hrr
      rcases List.mem_or_eq_of_mem_set hrr with hrr | hrr
      · exact hr r ((List.eraseIdx_sublist st.routes (max i1 i2)).mem hrr)
      · subst hrr
        refine ⟨htc, ?_⟩
        intro v hvv2 hid
        calc r1.totalCapacity + r2.totalCapacity ≤ vehicle.capacity := hcap
          _ = v.capacity := hlink v hvv2 (by rw [hid, ← hvid])

theorem foldl_buildStep_capsOk (vehicles : List (Vehicle α))
    (dist : Nat → Nat → α) (depot : Location α) :
    ∀ (locs : List (Location α)) (s : BuildState α),
      (∀ l ∈ locs, 0 ≤ l.demand) →
      fleetCapsOk vehicles s.fleet → routesCapsOk vehicles s.routes →
      fleetCapsOk vehicles (locs.foldl (buildStep dist depot) s).fleet ∧
        routesCapsOk vehicles (locs.foldl (buildStep dist depot) s).routes := by
  intro locs
  induction locs with
  | nil => intro s _ hf hr; exact ⟨hf, hr⟩
  | cons l ls ih =>
    intro s hl hf hr
    obtain ⟨hf2, hr2⟩ := buildStep_capsOk vehicles dist depot s l
      (hl l (List.mem_cons_self l ls)) hf hr
    exact ih (buildStep dist depot s l)
      (fun x hx => hl x (List.mem_cons_of_mem l hx)) hf2 hr2

theorem foldl_mergeStep_capsOk (vehicles : List (Vehicle α))
    (dist : Nat → Nat → α) :
    ∀ (svs : List (Saving α)) (st : MergeState α),
      fleetCapsOk vehicles st.fleet → routesCapsOk vehicles st.routes →
      fleetCapsOk vehicles (svs.foldl (mergeStep dist) st).fleet ∧
        routesCapsOk vehicles (svs.foldl (mergeStep dist) st).routes := by
  intro svs
  induction svs with
  | nil => intro st hf hr; exact ⟨hf, hr⟩
  | cons sv svs ih =>
    intro st hf hr
    obtain ⟨hf2, hr2⟩ := mergeStep_capsOk vehicles dist st sv hf hr
    exact ih (mergeStep dist st sv) hf2 hr2

/-- Claim C6: for valid input (distinct vehicle-type ids, non-negative
demands), every output route's cumulative demand (`totalCapacity`) is at
most the capacity of the vehicle it is bound to — the capacity of any
vehicle type whose id equals the route's `vehicleId`. -/
theorem C6_route_demand_le_capacity (dist : Nat → Nat → α)
    (vehicles : List (Vehicle α)) (locations : List (Location α))
    (depot : Location α) (hnd : (vehicles.map Vehicle.id).Nodup)
    (hdem : ∀ l ∈ locations, 0 ≤ l.demand) :
    ∀ r ∈ clarkeWrightAlgorithm dist vehicles locations depot,
      ∀ v ∈ vehicles, v.id = r.vehicleId → r.totalCapacity ≤ v.capacity := by
  intro r hrmem v hv hid
  unfold clarkeWrightAlgorithm at hrmem
  dsimp only at hrmem
  have hbuild := foldl_buildStep_capsOk vehicles dist depot
    (nonDepotLocations locations depot) ⟨[], expandVehicles vehicles, 0⟩
    (fun l hl => hdem l (List.mem_filter.mp hl).1)
    (expandVehicles_capsOk vehicles hnd) (by intro r hr; simp at hr)
  have hmerge := foldl_mergeStep_capsOk vehicles dist
    (sortSavings (mkSavings dist locations depot))
    ⟨(buildRoutes dist vehicles locations depot).routes,
      (buildRoutes dist vehicles locations depot).fleet⟩
    hbuild.1 hbuild.2
  exact (hmerge.2 r hrmem).2 v hv hid

/-- Witness for C6: in the capacity-10, two-instance scenario the merged
route's total demand 10 is within the capacity 10 of its vehicle type. -/
theorem C6_route_demand_le_capacity_witness :
    ((clarkeWrightAlgorithm scenarioDist [⟨10, "Truck", 10, 2⟩]
        scenarioLocations scenarioDepot).headI).totalCapacity ≤
      (⟨10, "Truck", 10, 2⟩ : Vehicle ℤ).capacity :=
  C6_route_demand_le_capacity scenarioDist [⟨10, "Truck", 10, 2⟩]
    scenarioLocations scenarioDepot (by decide) (by decide) _ (by decide)
    ⟨10, "Truck", 10, 2⟩ (by decide) (by decide)

/-! ## Claim C9

A non-depot stop whose demand exceeds every vehicle instance's capacity is
silently omitted: it never receives an initial route (the capacity guard,
auth.js line 198, fails for every vehicle because remaining capacity never
exceeds capacity), and the merge phase only reuses stops of existing
routes, so the stop appears nowhere in the output.  The algorithm is a
total function — it returns normally. -/

theorem buildStep_avoids (dist : Nat → Nat → α) (depot : Location α)
    (s0 : BuildState α) (location : Location α) (sid : Nat) (bound : α)
    (hdep : depot.id ≠ sid) (hd : 0 ≤ location.demand)
    (hbnd : location.id = sid → bound ≤ location.demand)
    (hfleet : ∀ inst ∈ s0.fleet,
      inst.remainingCapacity ≤ inst.capacity ∧ inst.capacity < bound)
    (hroutes : ∀ r ∈ s0.routes, ∀ stp ∈ r.stops, stp.locationId ≠ sid) :
    (∀ inst ∈ (buildStep dist depot s0 location).fleet,
      inst.remainingCapacity ≤ inst.capacity ∧ inst.capacity < bound) ∧
    ∀ r ∈ (buildStep dist depot s0 location).routes,
      ∀ stp ∈ r.stops, stp.locationId ≠ sid := by
  rcases buildStep_characterisation dist depot s0 location with heq |
    ⟨vehicle, hv, hc, heq⟩
  · rw [heq]; exact ⟨hfleet, hroutes⟩
  · rw [heq]
    have hmemv : vehicle ∈ s0.fleet := by
      obtain ⟨hlt, hg⟩ := List.getElem?_eq_some.mp hv
      rw [← hg]; exact List.getElem_mem hlt
    obtain ⟨hrem, hcapb⟩ := hfleet vehicle hmemv
    have hlocid : location.id ≠ sid := by
      intro habs
      have h1 : bound ≤ location.demand := hbnd habs
      have h2 : location.demand ≤ vehicle.capacity := le_trans hc hrem
      exact absurd (lt_of_le_of_lt (le_trans h1 h2) hcapb) (lt_irrefl bound)
    constructor
    · intro inst hinst
      rcases List.mem_or_eq_of_mem_set hinst with hinst | hinst
      · exact hfleet inst hinst
      · subst hinst
        exact ⟨le_trans (sub_le_self _ hd) hrem, hcapb⟩
    · intro r hrr stp hstp
      rcases List.mem_append.mp hrr with hrr | hrr
      · exact hroutes r hrr stp hstp
      · rw [List.mem_singleton.mp hrr] at hstp
        rcases hstp with _ | ⟨_, hstp⟩
        · exact hdep
        rcases hstp with _ | ⟨_, hstp⟩
        · exact hlocid
        rcases hstp with _ | ⟨_, hstp⟩
        · exact hdep
        · exact absurd hstp (List.not_mem_nil stp)

theorem mergeStep_avoids (dist : Nat → Nat → α) (st : MergeState α)
    (sv : Saving α) (sid : Nat)
    (h : ∀ r ∈ st.routes, ∀ stp ∈ r.stops, stp.locationId ≠ sid) :
    ∀ r ∈ (mergeStep dist st sv).routes, ∀ stp ∈ r.stops,
      stp.locationId ≠ sid := by
  rcases mergeStep_characterisation dist st sv with heq |
    ⟨i1, i2, r1, r2, vi, vehicle, h0, rest, hr1, hr2, hii, hvv, hvid, hcap, hst, heq⟩
  · rw [heq]; exact h
  · rw [heq]
    intro r hrr stp hstp
    rcases List.mem_or_eq_of_mem_set hrr with hrr | hrr
    · exact h r ((List.eraseIdx_sublist st.routes (max i1 i2)).mem hrr) stp hstp
    · subst hrr
      have hm1 : r1 ∈ st.routes := by
        obtain ⟨hlt, hg⟩ := List.getElem?_eq_some.mp hr1
        rw [← hg]; exact List.getElem_mem hlt
      have hm2 : r2 ∈ st.routes := by
        obtain ⟨hlt, hg⟩ := List.getElem?_eq_some.mp hr2
        rw [← hg]; exact List.getElem_mem hlt
      have hid : stp.locationId ∈
          (renumber 0 (h0 :: (mids r1 ++ mids r2) ++ [h0])).map Stop.locationId :=
        List.mem_map_of_mem Stop.locationId hstp
      rw [renumber_map_locationId] at hid
      obtain ⟨stp0, hstp0, heq0⟩ := List.mem_map.mp hid
      rw [← heq0]
      have hh0 : h0 ∈ r1.stops := by rw [hst]; exact List.mem_cons_self h0 rest
      have hmids1 : ∀ x ∈ mids r1, x ∈ r1.stops := fun x hx =>
        ((List.dropLast_sublist (r1.stops.drop 1)).trans
          (List.drop_sublist 1 r1.stops)).mem hx
      have hmids2 : ∀ x ∈ mids r2, x ∈ r2.stops := fun x hx =>
        ((List.dropLast_sublist (r2.stops.drop 1)).trans
          (List.drop_sublist 1 r2.stops)).mem hx
      rcases List.mem_cons.mp hstp0 with h' | h'
      · rw [h']; exact h r1 hm1 h0 hh0
      rcases List.mem_append.mp h' with h' | h'
      · rcases List.mem_append.mp h' with h' | h'
        · exact h r1 hm1 stp0 (hmids1 stp0 h')
        · exact h r2 hm2 stp0 (hmids2 stp0 h')
      · rw [List.mem_singleton.mp h']; exact h r1 hm1 h0 hh0

theorem foldl_buildStep_avoids (dist : Nat → Nat → α) (depot : Location α)
    (sid : Nat) (bound : α) (hdep : depot.id ≠ sid) :
    ∀ (locs : List (Location α)) (s0 : BuildState α),
      (∀ l ∈ locs, 0 ≤ l.demand) →
      (∀ l ∈ locs, l.id = sid → bound ≤ l.demand) →
      (∀ inst ∈ s0.fleet,
        inst.remainingCapacity ≤ inst.capacity ∧ inst.capacity < bound) →
      (∀ r ∈ s0.routes, ∀ stp ∈ r.stops, stp.locationId ≠ sid) →
      ∀ r ∈ (locs.foldl (buildStep dist depot) s0).routes,
        ∀ stp ∈ r.stops, stp.locationId ≠ sid := by
  intro locs
  induction locs with
  | nil => intro s0 _ _ _ hr; exact hr
  | cons l ls ih =>
    intro s0 hd hbnd hfleet hroutes
    obtain ⟨hf2, hr2⟩ := buildStep_avoids dist depot s0 l sid bound hdep
      (hd l (List.mem_cons_self l ls)) (hbnd l (List.mem_cons_self l ls))
      hfleet hroutes
    exact ih (buildStep dist depot s0 l)
      (fun x hx => hd x (List.mem_cons_of_mem l hx))
      (fun x hx => hbnd x (List.mem_cons_of_mem l hx)) hf2 hr2

theorem foldl_mergeStep_avoids (dist : Nat → Nat → α) (sid : Nat) :
    ∀ (svs : List (Saving α)) (st : MergeState α),
      (∀ r ∈ st.routes, ∀ stp ∈ r.stops, stp.locationId ≠ sid) →
      ∀ r ∈ (svs.foldl (mergeStep dist) st).routes, ∀ stp ∈ r.stops,
        stp.locationId ≠ sid := by
  intro svs
  induction svs with
  | nil => intro st h; exact h
  | cons sv svs ih =>
    intro st h
    exact ih (mergeStep dist st sv) (mergeStep_avoids dist st sv sid h)

/-- Claim C9 as amended: for valid input (distinct location ids,
non-negative demands), any NON-depot stop whose demand exceeds every
vehicle instance's capacity appears in no route of the output; the
algorithm nevertheless returns normally (it is a total function), so the
omission is silent.  (The depot itself is exempt: it frames every route
regardless of its demand, which is the counterexample to the unrestricted
claim.) -/
theorem C9_unroutable_stop_never_routed (dist : Nat → Nat → α)
    (vehicles : List (Vehicle α)) (locations : List (Location α))
    (depot : Location α) (s : Location α)
    (hnd : (locations.map Location.id).Nodup)
    (hdem : ∀ l ∈ locations, 0 ≤ l.demand)
    (hs : s ∈ locations) (hsd : s.id ≠ depot.id)
    (hbig : ∀ inst ∈ expandVehicles vehicles, inst.capacity < s.demand) :
    ∀ r ∈ clarkeWrightAlgorithm dist vehicles locations depot,
      ∀ stp ∈ r.stops, stp.locationId ≠ s.id := by
  intro r hrmem stp hstp
  unfold clarkeWrightAlgorithm at hrmem
  dsimp only at hrmem
  have hbuild := foldl_buildStep_avoids dist depot s.id s.demand
    (fun habs => hsd habs.symm) (nonDepotLocations locations depot)
    ⟨[], expandVehicles vehicles, 0⟩
    (fun l hl => hdem l (List.mem_filter.mp hl).1)
    (fun l hl hlid => by
      have hmem : l ∈ locations := (List.mem_filter.mp hl).1
      have : l = s := List.inj_on_of_nodup_map hnd hmem hs hlid
      rw [this])
    (fun inst hinst => by
      obtain ⟨t, ht, hrep⟩ := List.mem_flatMap.mp hinst
      have heqq := List.eq_of_mem_replicate hrep
      refine ⟨?_, hbig inst hinst⟩
      rw [heqq])
    (by intro r hr; simp at hr)
  exact foldl_mergeStep_avoids dist s.id
    (sortSavings (mkSavings dist locations depot))
    ⟨(buildRoutes dist vehicles locations depot).routes,
      (buildRoutes dist vehicles locations depot).fleet⟩
    hbuild r hrmem stp hstp

instance : Inhabited (Stop ℤ) := ⟨⟨0, "", 0, 0, 0, 0⟩⟩

/-- Witness for C9: with stops of demand 20 (exceeding both capacity-10
instances) and demand 5, the routed stop's route never mentions the
unroutable stop's id. -/
theorem C9_unroutable_stop_never_routed_witness :
    ((clarkeWrightAlgorithm scenarioDist [⟨10, "Truck", 10, 2⟩]
        [scenarioDepot, c2Big, c2Small] scenarioDepot).headI).stops.headI.locationId
      ≠ c2Big.id :=
  C9_unroutable_stop_never_routed scenarioDist [⟨10, "Truck", 10, 2⟩]
    [scenarioDepot, c2Big, c2Small] scenarioDepot c2Big (by decide) (by decide)
    (by decide) (by decide) (by decide)
    ((clarkeWrightAlgorithm scenarioDist [⟨10, "Truck", 10, 2⟩]
        [scenarioDepot, c2Big, c2Small] scenarioDepot).headI) (by decide)
    ((clarkeWrightAlgorithm scenarioDist [⟨10, "Truck", 10, 2⟩]
        [scenarioDepot, c2Big, c2Small] scenarioDepot).headI).stops.headI
    (by decide)

/-! ## Claim C3, amended general theorem

The savings list holds exactly one entry per ORDERED pair `(i, j)` of
distinct non-depot stops (hence two per unordered pair), each carrying the
value `dist(depot,i) + dist(depot,j) - dist(i,j)`. -/

theorem mkSavings_value (dist : Nat → Nat → α) (locations : List (Location α))
    (depot : Location α) :
    ∀ e ∈ mkSavings dist locations depot,
      e.saving = dist depot.id e.loc1.id + dist depot.id e.loc2.id -
        dist e.loc1.id e.loc2.id := by
  intro e he
  obtain ⟨x, hx, hmem⟩ := List.mem_flatMap.mp he
  by_cases hdep : (x.id == depot.id) = true
  · rw [if_pos hdep] at hmem
    exact absurd hmem (List.not_mem_nil e)
  · rw [if_neg hdep] at hmem
    obtain ⟨y, hy, hg⟩ := List.mem_filterMap.mp hmem
    by_cases hg2 : (y.id == depot.id || x.id == y.id) = true
    · rw [if_pos hg2] at hg
      exact absurd hg (by simp)
    · rw [if_neg hg2] at hg
      cases Option.some.inj hg
      rfl

theorem mkSavings_inner_count_pos (dist : Nat → Nat → α) (depot : Location α)
    (x : Location α) (i j : Nat) (hxi : (x.id == i) = true)
    (hdj : j ≠ depot.id) (hij : i ≠ j) :
    ∀ inner : List (Location α),
      (List.filter (fun e : Saving α => e.loc1.id == i && e.loc2.id == j)
        (inner.filterMap (fun loc2 =>
          if loc2.id == depot.id || x.id == loc2.id then none
          else some (⟨x, loc2, dist depot.id x.id + dist depot.id loc2.id -
            dist x.id loc2.id⟩ : Saving α)))).length
      = inner.countP (fun y => y.id == j) := by
  intro inner
  have hxi2 : x.id = i := by simpa using hxi
  induction inner with
  | nil => rfl
  | cons y ys ih =>
    by_cases hguard : (y.id == depot.id || x.id == y.id) = true
    · have hstep : List.filterMap
          (fun loc2 => if loc2.id == depot.id || x.id == loc2.id then none
            else some (⟨x, loc2, dist depot.id x.id + dist depot.id loc2.id -
              dist x.id loc2.id⟩ : Saving α)) (y :: ys)
          = List.filterMap
          (fun loc2 => if loc2.id == depot.id || x.id == loc2.id then none
            else some (⟨x, loc2, dist depot.id x.id + dist depot.id loc2.id -
              dist x.id loc2.id⟩ : Saving α)) ys :=
        List.filterMap_cons_none (if_pos hguard)
      rw [hstep, ih, List.countP_cons]
      have hyj : (y.id == j) = false := by
        simp only [Bool.or_eq_true, beq_iff_eq] at hguard
        rcases hguard with hguard | hguard
        · simp [hguard, Ne.symm hdj]
        · rw [← hguard, hxi2]
          simpa using hij
      simp [hyj]
    · have hstep : List.filterMap
          (fun loc2 => if loc2.id == depot.id || x.id == loc2.id then none
            else some (⟨x, loc2, dist depot.id x.id + dist depot.id loc2.id -
              dist x.id loc2.id⟩ : Saving α)) (y :: ys)
          = (⟨x, y, dist depot.id x.id + dist depot.id y.id -
              dist x.id y.id⟩ : Saving α) :: List.filterMap
          (fun loc2 => if loc2.id == depot.id || x.id == loc2.id then none
            else some (⟨x, loc2, dist depot.id x.id + dist depot.id loc2.id -
              dist x.id loc2.id⟩ : Saving α)) ys :=
        List.filterMap_cons_some (if_neg hguard)
      rw [hstep, List.filter_cons, List.countP_cons]
      by_cases hyj : (y.id == j) = true
      · have hp : ((fun e => e.loc1.id == i && e.loc2.id == j)
            (⟨x, y, dist depot.id x.id + dist depot.id y.id -
              dist x.id y.id⟩ : Saving α)) = true := by
          simp only [Bool.and_eq_true]
          exact ⟨hxi, hyj⟩
        rw [if_pos hp, List.length_cons, ih, if_pos hyj]
      · have hp : ((fun e => e.loc1.id == i && e.loc2.id == j)
            (⟨x, y, dist depot.id x.id + dist depot.id y.id -
              dist x.id y.id⟩ : Saving α)) = false := by
          simp only [Bool.and_eq_false_iff]
          right
          simpa using hyj
        rw [if_neg (by simp [hp]), ih, if_neg (by simp [hyj])]
        exact (Nat.add_zero _).symm

theorem mkSavings_inner_count_zero (dist : Nat → Nat → α) (depot : Location α)
    (x : Location α) (i j : Nat) (hxi : (x.id == i) = false)
    (inner : List (Location α)) :
    (List.filter (fun e : Saving α => e.loc1.id == i && e.loc2.id == j)
      (inner.filterMap (fun loc2 =>
        if loc2.id == depot.id || x.id == loc2.id then none
        else some (⟨x, loc2, dist depot.id x.id + dist depot.id loc2.id -
          dist x.id loc2.id⟩ : Saving α)))).length = 0 := by
  rw [List.length_eq_zero]
  rw [List.filter_eq_nil_iff]
  intro e he
  obtain ⟨y, hy, hg⟩ := List.mem_filterMap.mp he
  by_cases hg2 : (y.id == depot.id || x.id == y.id) = true
  · rw [if_pos hg2] at hg
    exact absurd hg (by simp)
  · rw [if_neg hg2] at hg
    cases Option.some.inj hg
    simp [hxi]

theorem mkSavings_count_aux (dist : Nat → Nat → α) (depot : Location α)
    (i j : Nat) (hdi : i ≠ depot.id) (hdj : j ≠ depot.id) (hij : i ≠ j)
    (inner : List (Location α)) :
    ∀ L : List (Location α),
      (List.filter (fun e : Saving α => e.loc1.id == i && e.loc2.id == j)
        (L.flatMap (fun loc1 =>
          if loc1.id == depot.id then [] else
          inner.filterMap (fun loc2 =>
            if loc2.id == depot.id || loc1.id == loc2.id then none
            else some (⟨loc1, loc2, dist depot.id loc1.id + dist depot.id loc2.id -
              dist loc1.id loc2.id⟩ : Saving α))))).length
      = L.countP (fun x => x.id == i) * inner.countP (fun y => y.id == j) := by
  intro L
  induction L with
  | nil => simp
  | cons x xs ih =>
    rw [List.flatMap_cons, List.filter_append, List.length_append, ih,
      List.countP_cons]
    by_cases hdep : (x.id == depot.id) = true
    · have hxi : (x.id == i) = false := by
        have : x.id = depot.id := by simpa using hdep
        simp [this, Ne.symm hdi]
      rw [if_pos hdep]
      simp [hxi]
    · rw [if_neg hdep]
      by_cases hxi : (x.id == i) = true
      · rw [mkSavings_inner_count_pos dist depot x i j hxi hdj hij inner]
        simp only [hxi, if_true]
        rw [Nat.add_mul, Nat.one_mul, Nat.add_comm]
      · rw [mkSavings_inner_count_zero dist depot x i j
          (by simpa using hxi) inner]
        simp [hxi]

theorem countP_id_eq_one {locations : List (Location α)} {l0 : Location α}
    (hnd : (locations.map Location.id).Nodup) (h : l0 ∈ locations) :
    locations.countP (fun x => x.id == l0.id) = 1 := by
  have h1 : List.count l0.id (locations.map Location.id) = 1 :=
    List.count_eq_one_of_mem hnd (List.mem_map_of_mem Location.id h)
  calc locations.countP (fun x => x.id == l0.id)
      = (locations.map Location.id).countP (fun n => n == l0.id) :=
        (List.countP_map (fun n => n == l0.id) Location.id locations).symm
    _ = List.count l0.id (locations.map Location.id) :=
        (List.count_eq_countP l0.id (locations.map Location.id)).symm
    _ = 1 := h1

/-- Claim C3 as amended: the savings value is computed exactly once per
ORDERED pair of distinct non-depot stops — so the sorted savings list holds
exactly TWO entries per unordered pair `{i, j}`, one for each orientation —
and every entry for the ordered pair `(i, j)` carries the value
`dist(depot,i) + dist(depot,j) - dist(i,j)`. -/
theorem C3_one_entry_per_ordered_pair (dist : Nat → Nat → α)
    (locations : List (Location α)) (depot : Location α)
    (li lj : Location α) (hnd : (locations.map Location.id).Nodup)
    (hi : li ∈ locations) (hj : lj ∈ locations)
    (hdi : li.id ≠ depot.id) (hdj : lj.id ≠ depot.id) (hij : li.id ≠ lj.id) :
    ((sortSavings (mkSavings dist locations depot)).filter
      (fun e => e.loc1.id == li.id && e.loc2.id == lj.id)).length = 1 ∧
    ∀ e ∈ sortSavings (mkSavings dist locations depot),
      e.loc1.id = li.id → e.loc2.id = lj.id →
      e.saving = dist depot.id li.id + dist depot.id lj.id -
        dist li.id lj.id := by
  have hperm : List.Perm (sortSavings (mkSavings dist locations depot))
      (mkSavings dist locations depot) :=
    List.perm_insertionSort savingsDesc (mkSavings dist locations depot)
  constructor
  · rw [(hperm.filter (fun e => e.loc1.id == li.id && e.loc2.id == lj.id)).length_eq]
    have hcount := mkSavings_count_aux dist depot li.id lj.id hdi hdj hij
      locations locations
    have h1 : locations.countP (fun x => x.id == li.id) = 1 :=
      countP_id_eq_one hnd hi
    have h2 : locations.countP (fun y => y.id == lj.id) = 1 :=
      countP_id_eq_one hnd hj
    rw [h1, h2] at hcount
    have h3 : (List.filter
        (fun e : Saving α => e.loc1.id == li.id && e.loc2.id == lj.id)
        (mkSavings dist locations depot)).length = 1 * 1 := hcount
    exact h3.trans (Nat.one_mul 1)
  · intro e he h1 h2
    have hval := mkSavings_value dist locations depot e (hperm.mem_iff.mp he)
    rw [h1, h2] at hval
    exact hval

/-- Witness for C3: in the scenario the sorted savings list has exactly one
entry for the ordered pair (stop 1, stop 2). -/
theorem C3_one_entry_per_ordered_pair_witness :
    ((sortSavings (mkSavings scenarioDist scenarioLocations scenarioDepot)).filter
      (fun e => e.loc1.id == scenarioStop1.id && e.loc2.id == scenarioStop2.id)).length
      = 1 :=
  (C3_one_entry_per_ordered_pair scenarioDist scenarioLocations scenarioDepot
    scenarioStop1 scenarioStop2 (by decide) (by decide) (by decide) (by decide)
    (by decide) (by decide)).1

/-! ## Claim C9, counterexample -/

def c9Depot : Location ℤ := ⟨0, "Depot", 0, 0, 50⟩

/-- Claim C9, counterexample to the unrestricted statement: the depot is a
stop, and when its demand (50) exceeds every vehicle instance's capacity
(10) it still appears in every output route — routes are always framed by
the depot — so "any stop whose demand exceeds every capacity appears in no
route" fails for the depot. -/
theorem C9_depot_demand_exceeds_capacity_still_routed :
    ((expandVehicles ([⟨10, "Truck", 10, 1⟩] : List (Vehicle ℤ))).all
      fun inst => decide (inst.capacity < c9Depot.demand)) = true ∧
    ((clarkeWrightAlgorithm scenarioDist [⟨10, "Truck", 10, 1⟩]
        [c9Depot, scenarioStop1] c9Depot).any
      fun r => r.stops.any fun stp => stp.locationId == c9Depot.id) = true := by
  decide

/-! ## Claim C7 -/

/-- Claim C7: the Haversine distance is symmetric — swapping the two
coordinate points leaves it unchanged — and the distance from any point to
itself is 0. -/
theorem C7_distance_symm_and_self_zero :
    (∀ lat1 lon1 lat2 lon2 : ℝ,
        calculateDistance lat1 lon1 lat2 lon2 =
          calculateDistance lat2 lon2 lat1 lon1) ∧
    ∀ lat lon : ℝ, calculateDistance lat lon lat lon = 0 :=
  ⟨calculateDistance_comm, calculateDistance_self⟩

end VRP
